import Mathlib

/-!
# Verification of the feast `repo_operations` reconciliation loop

Shallow embedding of `sdk/python/feast/repo_operations.py`: the discovery
pass (`parse_repo` classification), the per-kind keep/delete reconciler
(`_tag_registry_*_for_keep_delete`), the apply coordinator (`apply_total`),
the `.feastignore` reader and the repo file scanner (`read_feastignore`,
`get_ignore_files`, `get_repo_files`), and the project-name check
(`is_valid_name`).

Python sets are modelled as duplicate-free lists built with `setAdd`
(append-if-absent); `set.add` inside a `for` loop becomes `List.foldl` with
`setAdd`.  Python objects inspected by `isinstance` are modelled as `PyObj`
records carrying one Boolean per runtime-type check plus an opaque payload.
The registry collaborator is modelled by its project-scoped listings
(`Registry`) and by a trace of the calls `apply_total` makes to it.
-/

/-- A Python object bound at the top level of a definitions module, as the
discovery and reconciliation code sees it: a `name` attribute, the outcome
of each of the six `isinstance` checks used by `parse_repo`, the outcome of
`batch_source.validate` (an external collaborator), and an opaque payload
standing for all remaining attributes. -/
structure PyObj where
  name : String
  isFeatureTable : Bool
  isFeatureView : Bool
  isEntity : Bool
  isFeatureService : Bool
  isOnDemandFeatureView : Bool
  isRequestFeatureView : Bool
  sourceValid : Bool
  payload : Nat
deriving DecidableEq, Repr

/-- An `Entity` instance with the given name. -/
def mkEntity (n : String) : PyObj := ⟨n, false, false, true, false, false, false, true, 0⟩

/-- A `FeatureView` instance with the given name (its batch source validates). -/
def mkFeatureView (n : String) : PyObj := ⟨n, false, true, false, false, false, false, true, 0⟩

/-- A `RequestFeatureView` instance with the given name. -/
def mkRequestFeatureView (n : String) : PyObj := ⟨n, false, false, false, false, false, true, true, 0⟩

/-- An `OnDemandFeatureView` instance with the given name. -/
def mkOnDemandFeatureView (n : String) : PyObj := ⟨n, false, false, false, false, true, false, true, 0⟩

/-- A `FeatureTable` instance with the given name. -/
def mkFeatureTable (n : String) : PyObj := ⟨n, true, false, false, false, false, false, true, 0⟩

/-- A `FeatureService` instance with the given name. -/
def mkFeatureService (n : String) : PyObj := ⟨n, false, false, false, true, false, false, true, 0⟩

/-- Python `set.add`: append the element unless it is already present.
Keeps the list duplicate-free. -/
def setAdd {α : Type} [DecidableEq α] (s : List α) (x : α) : List α :=
  if x ∈ s then s else s ++ [x]

/-- `ParsedRepo` from `repo_operations.py`: one set per object kind,
produced by the discovery pass. -/
structure ParsedRepo where
  feature_tables : List PyObj
  feature_views : List PyObj
  on_demand_feature_views : List PyObj
  request_feature_views : List PyObj
  entities : List PyObj
  feature_services : List PyObj
deriving DecidableEq, Repr

/-- The empty `ParsedRepo` that `parse_repo` starts from. -/
def emptyRepo : ParsedRepo := ⟨[], [], [], [], [], []⟩

/-- The project-scoped listings returned by the registry collaborator:
`list_entities`, `list_feature_views`, `list_on_demand_feature_views`,
`list_feature_tables`, `list_feature_services`. -/
structure Registry where
  entities : List PyObj
  feature_views : List PyObj
  on_demand_feature_views : List PyObj
  feature_tables : List PyObj
  feature_services : List PyObj
deriving DecidableEq, Repr

/-- A registry with empty listings for every kind. -/
def emptyRegistry : Registry := ⟨[], [], [], [], []⟩

/-- Modelled from the spec: the reserved dummy-entity marker name
`DUMMY_ENTITY_NAME`, imported by `repo_operations.py` from
`feast.feature_view`, which is outside this excerpt.  The reconciler only
compares names against it, so the exact string is immaterial. -/
def DUMMY_ENTITY_NAME : String := "__dummy"

/-- The list of `name` attributes of a list of objects (the set
comprehensions `{e.name for e in ...}` in the tag functions). -/
def namesOf (l : List PyObj) : List String := l.map PyObj.name

/-- `_tag_registry_entities_for_keep_delete`: keep every declared entity;
delete every registry entity whose name is neither declared nor the dummy
marker. -/
def _tag_registry_entities_for_keep_delete (reg : Registry) (repo : ParsedRepo) :
    List PyObj × List PyObj :=
  (repo.entities,
   reg.entities.foldl
     (fun entities_to_delete registry_entity =>
       if registry_entity.name ∉ namesOf repo.entities ∧
          registry_entity.name ≠ DUMMY_ENTITY_NAME then
         setAdd entities_to_delete registry_entity
       else entities_to_delete)
     [])

/-- `_tag_registry_views_for_keep_delete`.  In the source,
`views_to_keep = cast(Set[BaseFeatureView], repo.feature_views)` returns the
same set object, so the subsequent `views_to_keep.add(request_fv)` calls
mutate `repo.feature_views` in place; the name set
`repo_feature_view_names` is computed from the mutated set.  The mutation
is made explicit here by returning the updated `ParsedRepo` as the third
component. -/
def _tag_registry_views_for_keep_delete (reg : Registry) (repo : ParsedRepo) :
    List PyObj × List PyObj × ParsedRepo :=
  let views_to_keep := repo.request_feature_views.foldl setAdd repo.feature_views
  let repo' : ParsedRepo := { repo with feature_views := views_to_keep }
  (views_to_keep,
   reg.feature_views.foldl
     (fun views_to_delete registry_view =>
       if registry_view.name ∉ namesOf repo'.feature_views then
         setAdd views_to_delete registry_view
       else views_to_delete)
     [],
   repo')

/-- `_tag_registry_on_demand_feature_views_for_keep_delete`. -/
def _tag_registry_on_demand_feature_views_for_keep_delete (reg : Registry) (repo : ParsedRepo) :
    List PyObj × List PyObj :=
  (repo.on_demand_feature_views,
   reg.on_demand_feature_views.foldl
     (fun odfvs_to_delete registry_odfv =>
       if registry_odfv.name ∉ namesOf repo.on_demand_feature_views then
         setAdd odfvs_to_delete registry_odfv
       else odfvs_to_delete)
     [])

/-- `_tag_registry_tables_for_keep_delete`. -/
def _tag_registry_tables_for_keep_delete (reg : Registry) (repo : ParsedRepo) :
    List PyObj × List PyObj :=
  (repo.feature_tables,
   reg.feature_tables.foldl
     (fun tables_to_delete registry_table =>
       if registry_table.name ∉ namesOf repo.feature_tables then
         setAdd tables_to_delete registry_table
       else tables_to_delete)
     [])

/-- `_tag_registry_services_for_keep_delete`. -/
def _tag_registry_services_for_keep_delete (reg : Registry) (repo : ParsedRepo) :
    List PyObj × List PyObj :=
  (repo.feature_services,
   reg.feature_services.foldl
     (fun services_to_delete registry_service =>
       if registry_service.name ∉ namesOf repo.feature_services then
         setAdd services_to_delete registry_service
       else services_to_delete)
     [])

/-! ## Generic lemmas about the `foldl`/`setAdd` loop shape -/

theorem mem_setAdd {α : Type} [DecidableEq α] (s : List α) (x y : α) :
    y ∈ setAdd s x ↔ y ∈ s ∨ y = x := by
  unfold setAdd
  by_cases h : x ∈ s
  · simp only [if_pos h]
    constructor
    · exact Or.inl
    · rintro (hy | rfl)
      · exact hy
      · exact h
  · simp [if_neg h]

theorem nodup_setAdd {α : Type} [DecidableEq α] (s : List α) (x : α) (h : s.Nodup) :
    (setAdd s x).Nodup := by
  unfold setAdd
  by_cases hx : x ∈ s
  · simpa [if_pos hx]
  · rw [if_neg hx]
    refine h.append (List.nodup_singleton x) ?_
    intro a ha hax
    rw [List.mem_singleton] at hax
    exact hx (hax ▸ ha)

theorem mem_foldl_setAdd {α : Type} [DecidableEq α] (l : List α) :
    ∀ (acc : List α) (y : α), y ∈ l.foldl setAdd acc ↔ y ∈ acc ∨ y ∈ l := by
  induction l with
  | nil => simp
  | cons a l ih =>
    intro acc y
    rw [List.foldl_cons, ih, mem_setAdd, List.mem_cons]
    tauto

theorem nodup_foldl_setAdd {α : Type} [DecidableEq α] (l : List α) :
    ∀ (acc : List α), acc.Nodup → (l.foldl setAdd acc).Nodup := by
  induction l with
  | nil => intro acc h; simpa
  | cons a l ih => intro acc h; exact ih _ (nodup_setAdd _ _ h)

theorem mem_foldl_addIf {α : Type} [DecidableEq α] (cond : α → Prop) [DecidablePred cond]
    (l : List α) : ∀ (acc : List α) (y : α),
    y ∈ l.foldl (fun acc e => if cond e then setAdd acc e else acc) acc ↔
      y ∈ acc ∨ (y ∈ l ∧ cond y) := by
  induction l with
  | nil => simp
  | cons a l ih =>
    intro acc y
    rw [List.foldl_cons, ih]
    by_cases h : cond a
    · rw [if_pos h, mem_setAdd]
      constructor
      · rintro ((hy | hy) | hy)
        · exact Or.inl hy
        · exact Or.inr ⟨List.mem_cons.mpr (Or.inl hy), hy.symm ▸ h⟩
        · exact Or.inr ⟨List.mem_cons.mpr (Or.inr hy.1), hy.2⟩
      · rintro (hy | ⟨hmem, hc⟩)
        · exact Or.inl (Or.inl hy)
        · rcases List.mem_cons.mp hmem with hy | hmem
          · exact Or.inl (Or.inr hy)
          · exact Or.inr ⟨hmem, hc⟩
    · rw [if_neg h]
      constructor
      · rintro (hy | hy)
        · exact Or.inl hy
        · exact Or.inr ⟨List.mem_cons.mpr (Or.inr hy.1), hy.2⟩
      · rintro (hy | ⟨hmem, hc⟩)
        · exact Or.inl hy
        · rcases List.mem_cons.mp hmem with hy | hmem
          · exact absurd (hy ▸ hc) h
          · exact Or.inr ⟨hmem, hc⟩

theorem foldl_addIf_eq_nil {α : Type} [DecidableEq α] (cond : α → Prop) [DecidablePred cond]
    (l : List α) (h : ∀ x ∈ l, ¬ cond x) :
    l.foldl (fun acc e => if cond e then setAdd acc e else acc) [] = [] := by
  rw [List.eq_nil_iff_forall_not_mem]
  intro y hy
  rcases (mem_foldl_addIf cond l [] y).mp hy with hy | ⟨hmem, hc⟩
  · exact absurd hy (List.not_mem_nil y)
  · exact h y hmem hc

theorem mem_namesOf_foldl_setAdd (l acc : List PyObj) (x : String) :
    x ∈ namesOf (l.foldl setAdd acc) ↔ x ∈ namesOf acc ∨ x ∈ namesOf l := by
  unfold namesOf
  simp only [List.mem_map]
  constructor
  · rintro ⟨o, ho, rfl⟩
    rcases (mem_foldl_setAdd l acc o).mp ho with h | h
    · exact Or.inl ⟨o, h, rfl⟩
    · exact Or.inr ⟨o, h, rfl⟩
  · rintro (⟨o, ho, rfl⟩ | ⟨o, ho, rfl⟩)
    · exact ⟨o, (mem_foldl_setAdd l acc o).mpr (Or.inl ho), rfl⟩
    · exact ⟨o, (mem_foldl_setAdd l acc o).mpr (Or.inr ho), rfl⟩

/-! ## Claim C1: entity reconciliation -/

/-- The declared repo of the C1 scenario: entities `{"user"}`. -/
def repoC1 : ParsedRepo := { emptyRepo with entities := [mkEntity "user"] }

/-- The registry of the C1 scenario: entities `{"user", "driver", DUMMY}`. -/
def regC1 : Registry :=
  { emptyRegistry with
    entities := [mkEntity "user", mkEntity "driver", mkEntity DUMMY_ENTITY_NAME] }

/-- Claim C1: for every registry snapshot and declared repo, the entity
reconciliation keeps exactly the declared entities and deletes exactly the
persisted entities whose name is neither declared nor the dummy marker; the
dummy entity is never in a delete-set; and in the scenario with declared
`{"user"}` and persisted `{"user", "driver", DUMMY}`, keep is `{"user"}` and
delete is `{"driver"}`. -/
theorem entities_keep_delete_correct :
    (∀ reg repo, (_tag_registry_entities_for_keep_delete reg repo).1 = repo.entities) ∧
    (∀ reg repo e, e ∈ (_tag_registry_entities_for_keep_delete reg repo).2 ↔
      e ∈ reg.entities ∧ e.name ∉ namesOf repo.entities ∧ e.name ≠ DUMMY_ENTITY_NAME) ∧
    (∀ reg repo e, e ∈ (_tag_registry_entities_for_keep_delete reg repo).2 →
      e.name ≠ DUMMY_ENTITY_NAME) ∧
    namesOf (_tag_registry_entities_for_keep_delete regC1 repoC1).1 = ["user"] ∧
    namesOf (_tag_registry_entities_for_keep_delete regC1 repoC1).2 = ["driver"] := by
  have hdel : ∀ reg repo e, e ∈ (_tag_registry_entities_for_keep_delete reg repo).2 ↔
      e ∈ reg.entities ∧ e.name ∉ namesOf repo.entities ∧ e.name ≠ DUMMY_ENTITY_NAME := by
    intro reg repo e
    have h := mem_foldl_addIf
      (fun x : PyObj => x.name ∉ namesOf repo.entities ∧ x.name ≠ DUMMY_ENTITY_NAME)
      reg.entities [] e
    simpa [_tag_registry_entities_for_keep_delete] using h
  refine ⟨fun reg repo => rfl, hdel, ?_, by decide, by decide⟩
  intro reg repo e he
  exact ((hdel reg repo e).mp he).2.2

/-- Instantiation of `entities_keep_delete_correct`: in the C1 scenario the
deleted entity `"driver"` is not the dummy marker. -/
theorem entities_keep_delete_correct_inst :
    (mkEntity "driver").name ≠ DUMMY_ENTITY_NAME :=
  entities_keep_delete_correct.2.2.1 regC1 repoC1 (mkEntity "driver") (by decide)

/-! ## Claims C2 and C3: feature-view reconciliation and the
`ParsedRepo` mutation -/

/-- Declared repo for the C2/C3 counterexamples: no feature views, one
request feature view named `"r"`. -/
def repoC2 : ParsedRepo := { emptyRepo with request_feature_views := [mkRequestFeatureView "r"] }

/-- Registry for the C2/C3 counterexamples: one persisted feature view
named `"r"`. -/
def regC2 : Registry := { emptyRegistry with feature_views := [mkFeatureView "r"] }

/-- Counterexample to claim C2: the persisted feature view `"r"` has no
matching name among the declared feature views (there are none), yet the
computed delete-set is empty, because the name set is computed after the
request feature view `"r"` has been added into the aliased
`repo.feature_views`. -/
theorem views_delete_claim_cex :
    mkFeatureView "r" ∈ regC2.feature_views ∧
    "r" ∉ namesOf repoC2.feature_views ∧
    (_tag_registry_views_for_keep_delete regC2 repoC2).2.1 = [] := by decide

/-- Claim C2 (amended): the feature-view keep-set is the union of the
declared feature views and the declared request feature views, and the
delete-set consists of the persisted feature views whose name matches
neither a declared feature view nor a declared request feature view (the
request-view names participate because the keep-set aliases and mutates
`repo.feature_views` before the name set is computed). -/
theorem views_keep_delete_behavior :
    (∀ reg repo v, v ∈ (_tag_registry_views_for_keep_delete reg repo).1 ↔
       v ∈ repo.feature_views ∨ v ∈ repo.request_feature_views) ∧
    (∀ reg repo v, v ∈ (_tag_registry_views_for_keep_delete reg repo).2.1 ↔
       v ∈ reg.feature_views ∧ v.name ∉ namesOf repo.feature_views ∧
         v.name ∉ namesOf repo.request_feature_views) := by
  constructor
  · intro reg repo v
    simpa [_tag_registry_views_for_keep_delete] using
      mem_foldl_setAdd repo.request_feature_views repo.feature_views v
  · intro reg repo v
    have h := mem_foldl_addIf
      (fun x : PyObj =>
        x.name ∉ namesOf (repo.request_feature_views.foldl setAdd repo.feature_views))
      reg.feature_views [] v
    have h2 : v ∈ (_tag_registry_views_for_keep_delete reg repo).2.1 ↔
        v ∈ reg.feature_views ∧
          v.name ∉ namesOf (repo.request_feature_views.foldl setAdd repo.feature_views) := by
      refine Iff.trans ?_ (h.trans (by simp))
      rfl
    rw [h2, mem_namesOf_foldl_setAdd]
    tauto

/-- Counterexample to claim C3: with one declared request feature view and
no declared feature views, the feature-view keep/delete computation changes
the `feature_views` set of the `ParsedRepo` (the Python code mutates it
through the aliased `views_to_keep` set). -/
theorem tag_views_mutation_cex :
    (_tag_registry_views_for_keep_delete regC2 repoC2).2.2.feature_views ≠
      repoC2.feature_views ∧
    (_tag_registry_views_for_keep_delete regC2 repoC2).2.2 ≠ repoC2 := by decide

/-- Claim C3 (amended): the feature-view keep/delete computation leaves
five of the six `ParsedRepo` sets unchanged, but replaces `feature_views`
by its union with the declared request feature views; in particular the
`ParsedRepo` is unchanged only when that union adds nothing. -/
theorem tag_views_frame :
    ∀ reg repo,
    (_tag_registry_views_for_keep_delete reg repo).2.2.feature_tables = repo.feature_tables ∧
    (_tag_registry_views_for_keep_delete reg repo).2.2.on_demand_feature_views =
      repo.on_demand_feature_views ∧
    (_tag_registry_views_for_keep_delete reg repo).2.2.request_feature_views =
      repo.request_feature_views ∧
    (_tag_registry_views_for_keep_delete reg repo).2.2.entities = repo.entities ∧
    (_tag_registry_views_for_keep_delete reg repo).2.2.feature_services =
      repo.feature_services ∧
    (_tag_registry_views_for_keep_delete reg repo).2.2.feature_views =
      repo.request_feature_views.foldl setAdd repo.feature_views := by
  intro reg repo
  exact ⟨rfl, rfl, rfl, rfl, rfl, rfl⟩

/-! ## The per-kind reconciliation bundle (the tag-function calls of
`apply_total`) and Claim C4 -/

/-- The keep/delete sets of all five kinds, exactly as `apply_total`
computes them: the entity and view tag functions run on the parsed repo,
and the on-demand-view, table and service tag functions run on the repo as
left by the view tag function (which has mutated `feature_views`). -/
structure Plan where
  entities_keep : List PyObj
  entities_delete : List PyObj
  views_keep : List PyObj
  views_delete : List PyObj
  odfvs_keep : List PyObj
  odfvs_delete : List PyObj
  tables_keep : List PyObj
  tables_delete : List PyObj
  services_keep : List PyObj
  services_delete : List PyObj
deriving DecidableEq, Repr

/-- The sequence of tag-function calls in `apply_total` (source lines
152-168). -/
def reconcile (reg : Registry) (repo : ParsedRepo) : Plan :=
  let e := _tag_registry_entities_for_keep_delete reg repo
  let v := _tag_registry_views_for_keep_delete reg repo
  let o := _tag_registry_on_demand_feature_views_for_keep_delete reg v.2.2
  let t := _tag_registry_tables_for_keep_delete reg v.2.2
  let s := _tag_registry_services_for_keep_delete reg v.2.2
  ⟨e.1, e.2, v.1, v.2.1, o.1, o.2, t.1, t.2, s.1, s.2⟩

theorem entities_delete_nil (reg : Registry) (repo : ParsedRepo)
    (h : ∀ e ∈ reg.entities, e.name ∈ namesOf repo.entities) :
    (_tag_registry_entities_for_keep_delete reg repo).2 = [] :=
  foldl_addIf_eq_nil
    (fun x : PyObj => x.name ∉ namesOf repo.entities ∧ x.name ≠ DUMMY_ENTITY_NAME)
    reg.entities (fun x hx hc => hc.1 (h x hx))

theorem views_delete_nil (reg : Registry) (repo : ParsedRepo)
    (h : ∀ v ∈ reg.feature_views,
      v.name ∈ namesOf (repo.request_feature_views.foldl setAdd repo.feature_views)) :
    (_tag_registry_views_for_keep_delete reg repo).2.1 = [] :=
  foldl_addIf_eq_nil
    (fun x : PyObj =>
      x.name ∉ namesOf (repo.request_feature_views.foldl setAdd repo.feature_views))
    reg.feature_views (fun x hx hc => hc (h x hx))

theorem odfvs_delete_nil (reg : Registry) (repo : ParsedRepo)
    (h : ∀ o ∈ reg.on_demand_feature_views,
      o.name ∈ namesOf repo.on_demand_feature_views) :
    (_tag_registry_on_demand_feature_views_for_keep_delete reg repo).2 = [] :=
  foldl_addIf_eq_nil
    (fun x : PyObj => x.name ∉ namesOf repo.on_demand_feature_views)
    reg.on_demand_feature_views (fun x hx hc => hc (h x hx))

theorem tables_delete_nil (reg : Registry) (repo : ParsedRepo)
    (h : ∀ t ∈ reg.feature_tables, t.name ∈ namesOf repo.feature_tables) :
    (_tag_registry_tables_for_keep_delete reg repo).2 = [] :=
  foldl_addIf_eq_nil
    (fun x : PyObj => x.name ∉ namesOf repo.feature_tables)
    reg.feature_tables (fun x hx hc => hc (h x hx))

theorem services_delete_nil (reg : Registry) (repo : ParsedRepo)
    (h : ∀ s ∈ reg.feature_services, s.name ∈ namesOf repo.feature_services) :
    (_tag_registry_services_for_keep_delete reg repo).2 = [] :=
  foldl_addIf_eq_nil
    (fun x : PyObj => x.name ∉ namesOf repo.feature_services)
    reg.feature_services (fun x hx hc => hc (h x hx))

/-- Claim C4: reconciliation is idempotent.  If the registry listing of
every kind equals the keep-set of a first reconciliation run over the same
declared repo, a second run produces an empty delete-set for every kind and
keep-sets equal to the declared sets, identical to the first run's
keep-sets. -/
theorem reconcile_idempotent :
    ∀ (repo : ParsedRepo) (reg reg2 : Registry),
    reg2.entities = (reconcile reg repo).entities_keep →
    reg2.feature_views = (reconcile reg repo).views_keep →
    reg2.on_demand_feature_views = (reconcile reg repo).odfvs_keep →
    reg2.feature_tables = (reconcile reg repo).tables_keep →
    reg2.feature_services = (reconcile reg repo).services_keep →
    (reconcile reg2 repo).entities_delete = [] ∧
    (reconcile reg2 repo).views_delete = [] ∧
    (reconcile reg2 repo).odfvs_delete = [] ∧
    (reconcile reg2 repo).tables_delete = [] ∧
    (reconcile reg2 repo).services_delete = [] ∧
    (reconcile reg2 repo).entities_keep = repo.entities ∧
    (reconcile reg2 repo).views_keep =
      repo.request_feature_views.foldl setAdd repo.feature_views ∧
    (reconcile reg2 repo).odfvs_keep = repo.on_demand_feature_views ∧
    (reconcile reg2 repo).tables_keep = repo.feature_tables ∧
    (reconcile reg2 repo).services_keep = repo.feature_services ∧
    (reconcile reg2 repo).entities_keep = (reconcile reg repo).entities_keep ∧
    (reconcile reg2 repo).views_keep = (reconcile reg repo).views_keep ∧
    (reconcile reg2 repo).odfvs_keep = (reconcile reg repo).odfvs_keep ∧
    (reconcile reg2 repo).tables_keep = (reconcile reg repo).tables_keep ∧
    (reconcile reg2 repo).services_keep = (reconcile reg repo).services_keep := by
  intro repo reg reg2 h1 h2 h3 h4 h5
  refine ⟨?_, ?_, ?_, ?_, ?_, rfl, rfl, rfl, rfl, rfl, rfl, rfl, rfl, rfl, rfl⟩
  · show (_tag_registry_entities_for_keep_delete reg2 repo).2 = []
    refine entities_delete_nil reg2 repo ?_
    rw [h1]
    intro e he
    exact List.mem_map_of_mem PyObj.name he
  · show (_tag_registry_views_for_keep_delete reg2 repo).2.1 = []
    refine views_delete_nil reg2 repo ?_
    rw [h2]
    intro v hv
    exact List.mem_map_of_mem PyObj.name hv
  · show (_tag_registry_on_demand_feature_views_for_keep_delete reg2
        (_tag_registry_views_for_keep_delete reg2 repo).2.2).2 = []
    refine odfvs_delete_nil reg2 _ ?_
    rw [h3]
    intro o ho
    exact List.mem_map_of_mem PyObj.name ho
  · show (_tag_registry_tables_for_keep_delete reg2
        (_tag_registry_views_for_keep_delete reg2 repo).2.2).2 = []
    refine tables_delete_nil reg2 _ ?_
    rw [h4]
    intro t ht
    exact List.mem_map_of_mem PyObj.name ht
  · show (_tag_registry_services_for_keep_delete reg2
        (_tag_registry_views_for_keep_delete reg2 repo).2.2).2 = []
    refine services_delete_nil reg2 _ ?_
    rw [h5]
    intro s hs
    exact List.mem_map_of_mem PyObj.name hs

/-- A declared repo with one object of every kind, for instantiating
`reconcile_idempotent`. -/
def repoW : ParsedRepo :=
  ⟨[mkFeatureTable "t"], [mkFeatureView "v"], [mkOnDemandFeatureView "o"],
   [mkRequestFeatureView "q"], [mkEntity "user"], [mkFeatureService "s"]⟩

/-- A first-run registry containing a stale entity and a stale feature
view. -/
def regW : Registry :=
  ⟨[mkEntity "user", mkEntity "stale"], [mkFeatureView "old_view"], [], [], []⟩

/-- The registry after the first run is applied: each listing equals the
first run's keep-set. -/
def regW2 : Registry :=
  ⟨(reconcile regW repoW).entities_keep, (reconcile regW repoW).views_keep,
   (reconcile regW repoW).odfvs_keep, (reconcile regW repoW).tables_keep,
   (reconcile regW repoW).services_keep⟩

/-- Instantiation of `reconcile_idempotent` on a concrete repo and
registry. -/
theorem reconcile_idempotent_inst :
    (reconcile regW2 repoW).entities_delete = [] ∧
    (reconcile regW2 repoW).views_delete = [] ∧
    (reconcile regW2 repoW).odfvs_delete = [] ∧
    (reconcile regW2 repoW).tables_delete = [] ∧
    (reconcile regW2 repoW).services_delete = [] ∧
    (reconcile regW2 repoW).entities_keep = repoW.entities ∧
    (reconcile regW2 repoW).views_keep =
      repoW.request_feature_views.foldl setAdd repoW.feature_views ∧
    (reconcile regW2 repoW).odfvs_keep = repoW.on_demand_feature_views ∧
    (reconcile regW2 repoW).tables_keep = repoW.feature_tables ∧
    (reconcile regW2 repoW).services_keep = repoW.feature_services ∧
    (reconcile regW2 repoW).entities_keep = (reconcile regW repoW).entities_keep ∧
    (reconcile regW2 repoW).views_keep = (reconcile regW repoW).views_keep ∧
    (reconcile regW2 repoW).odfvs_keep = (reconcile regW repoW).odfvs_keep ∧
    (reconcile regW2 repoW).tables_keep = (reconcile regW repoW).tables_keep ∧
    (reconcile regW2 repoW).services_keep = (reconcile regW repoW).services_keep :=
  reconcile_idempotent repoW regW regW2 rfl rfl rfl rfl rfl

/-! ## Claim C6: discovery classification (`parse_repo`) -/

/-- The classification of one top-level module value in `parse_repo`
(source lines 111-124): an independent `if` for the `FeatureTable` check
followed by an `if`/`elif` chain `FeatureView`, `Entity`, `FeatureService`,
`OnDemandFeatureView`, `RequestFeatureView`. -/
def classifyObj (res : ParsedRepo) (obj : PyObj) : ParsedRepo :=
  let res1 :=
    if obj.isFeatureTable then
      { res with feature_tables := setAdd res.feature_tables obj }
    else res
  if obj.isFeatureView then
    { res1 with feature_views := setAdd res1.feature_views obj }
  else if obj.isEntity then
    { res1 with entities := setAdd res1.entities obj }
  else if obj.isFeatureService then
    { res1 with feature_services := setAdd res1.feature_services obj }
  else if obj.isOnDemandFeatureView then
    { res1 with on_demand_feature_views := setAdd res1.on_demand_feature_views obj }
  else if obj.isRequestFeatureView then
    { res1 with request_feature_views := setAdd res1.request_feature_views obj }
  else res1

/-- `parse_repo`, restricted to the classification loop: fold the
classifier over every top-level value of every discovered module, starting
from the empty `ParsedRepo`.  (Module loading itself is the external import
machinery.) -/
def parse_repo (moduleValues : List PyObj) : ParsedRepo :=
  moduleValues.foldl classifyObj emptyRepo

/-- Claim C6: classifying a single value records it in the feature-table
set iff the `FeatureTable` check passes and in the feature-view set iff the
`FeatureView` check passes (the two checks are independent, so a value
passing both lands in both sets); the remaining four kinds are mutually
exclusive and assigned in the priority order `Entity`, `FeatureService`,
`OnDemandFeatureView`, `RequestFeatureView` (each membership requires all
earlier checks of the `elif` chain, including the `FeatureView` check that
heads it, to fail); a value recognized by no check is ignored. -/
theorem classify_priority_spec :
    ∀ obj : PyObj,
    (obj ∈ (classifyObj emptyRepo obj).feature_tables ↔ obj.isFeatureTable = true) ∧
    (obj ∈ (classifyObj emptyRepo obj).feature_views ↔ obj.isFeatureView = true) ∧
    (obj ∈ (classifyObj emptyRepo obj).entities ↔
      obj.isEntity = true ∧ obj.isFeatureView = false) ∧
    (obj ∈ (classifyObj emptyRepo obj).feature_services ↔
      obj.isFeatureService = true ∧ obj.isFeatureView = false ∧ obj.isEntity = false) ∧
    (obj ∈ (classifyObj emptyRepo obj).on_demand_feature_views ↔
      obj.isOnDemandFeatureView = true ∧ obj.isFeatureView = false ∧
        obj.isEntity = false ∧ obj.isFeatureService = false) ∧
    (obj ∈ (classifyObj emptyRepo obj).request_feature_views ↔
      obj.isRequestFeatureView = true ∧ obj.isFeatureView = false ∧
        obj.isEntity = false ∧ obj.isFeatureService = false ∧
        obj.isOnDemandFeatureView = false) ∧
    ((if obj ∈ (classifyObj emptyRepo obj).entities then 1 else 0) +
     (if obj ∈ (classifyObj emptyRepo obj).feature_services then 1 else 0) +
     (if obj ∈ (classifyObj emptyRepo obj).on_demand_feature_views then 1 else 0) +
     (if obj ∈ (classifyObj emptyRepo obj).request_feature_views then 1 else 0) ≤ 1) ∧
    (obj.isFeatureTable = false → obj.isFeatureView = false → obj.isEntity = false →
      obj.isFeatureService = false → obj.isOnDemandFeatureView = false →
      obj.isRequestFeatureView = false → classifyObj emptyRepo obj = emptyRepo) := by
  intro obj
  rcases obj with ⟨n, ft, fv, en, sv, od, rf, sov, pl⟩
  cases ft <;> cases fv <;> cases en <;> cases sv <;> cases od <;> cases rf <;>
    simp [classifyObj, emptyRepo, setAdd]

/-- Instantiation of `classify_priority_spec`: a value passing no check
leaves the repo empty, and a value passing both the `FeatureTable` and
`FeatureView` checks is recorded in both sets. -/
theorem classify_priority_spec_inst :
    classifyObj emptyRepo ⟨"x", false, false, false, false, false, false, true, 0⟩ =
      emptyRepo ∧
    ((⟨"y", true, true, false, false, false, false, true, 0⟩ : PyObj) ∈
      (classifyObj emptyRepo ⟨"y", true, true, false, false, false, false, true, 0⟩).feature_tables ∧
     (⟨"y", true, true, false, false, false, false, true, 0⟩ : PyObj) ∈
      (classifyObj emptyRepo ⟨"y", true, true, false, false, false, false, true, 0⟩).feature_views) :=
  ⟨(classify_priority_spec _).2.2.2.2.2.2.2 rfl rfl rfl rfl rfl rfl,
   (classify_priority_spec _).1.mpr rfl, (classify_priority_spec _).2.1.mpr rfl⟩

/-! ## `is_valid_name` and the apply coordinator (`apply_total`) -/

/-- A word character in the sense of the regex `\W` used by
`is_valid_name`: alphanumeric or underscore. -/
def isWordChar (c : Char) : Bool := c.isAlphanum || c == '_'

/-- Python `name.startswith("_")`. -/
def startsWithUnderscore (name : String) : Bool :=
  match name.data with
  | [] => false
  | c :: _ => c == '_'

/-- `is_valid_name`: no leading underscore and no non-word character
(`re.compile(r"\W+").search(name) is None` holds iff every character is a
word character). -/
def is_valid_name (name : String) : Bool :=
  ! startsWithUnderscore name && name.data.all isWordChar

/-- The observable calls `apply_total` makes to the registry collaborator,
in order: `_initialize_registry`, the five per-kind listing calls issued by
the tag functions, and `store.apply`.  The Boolean of `applyEvt` models the
`partial` keyword argument of `store.apply`. -/
inductive Event where
  | initializeRegistry : Event
  | listEntities : Event
  | listFeatureViews : Event
  | listOnDemandFeatureViews : Event
  | listFeatureTables : Event
  | listFeatureServices : Event
  | applyEvt : List PyObj → List PyObj → Bool → Event
deriving DecidableEq, Repr

/-- How `apply_total` terminates: `sys.exit(1)` on an invalid project
name, an exception propagating from `batch_source.validate`, or normal
completion. -/
inductive Outcome where
  | exitNonZero : Outcome
  | validationError : Outcome
  | completed : Outcome
deriving DecidableEq, Repr

/-- `apply_total` (source lines 128-194), with the registry collaborator
abstracted to its listings `reg` and to the trace of calls made to it.
The parsed repo is passed in (module execution is external); report-only
`click.echo` output is not part of the trace.  Order of operations follows
the source: the name check precedes `registry._initialize_registry()`;
batch-source validation (unless skipped) precedes the tag functions; the
merged keep/delete lists extend in the kind order entities, views,
services, on-demand views, tables; `store.apply` is called once with
`partial=False`. -/
def apply_total (project : String) (reg : Registry) (repo : ParsedRepo)
    (skip_source_validation : Bool) : Outcome × List Event :=
  if ! is_valid_name project then
    (Outcome.exitNonZero, [])
  else if ! skip_source_validation &&
      repo.feature_views.any (fun t => ! t.sourceValid) then
    (Outcome.validationError, [Event.initializeRegistry])
  else
    let p := reconcile reg repo
    (Outcome.completed,
     [Event.initializeRegistry,
      Event.listEntities, Event.listFeatureViews, Event.listOnDemandFeatureViews,
      Event.listFeatureTables, Event.listFeatureServices,
      Event.applyEvt
        (p.entities_keep ++ p.views_keep ++ p.services_keep ++
          p.odfvs_keep ++ p.tables_keep)
        (p.entities_delete ++ p.views_delete ++ p.services_delete ++
          p.odfvs_delete ++ p.tables_delete)
        false])

/-- Recognizer for the `store.apply` call in a trace. -/
def isApplyEvt : Event → Bool
  | Event.applyEvt _ _ _ => true
  | _ => false

/-- Claim C7: an invalid project name makes `apply_total` exit non-zero
with an empty collaborator trace — in particular no listing call and no
apply call is made — and the project name `"_bad"` is invalid. -/
theorem apply_total_invalid_name_aborts :
    (∀ (project : String) (reg : Registry) (repo : ParsedRepo) (skip : Bool),
      is_valid_name project = false →
      apply_total project reg repo skip = (Outcome.exitNonZero, [])) ∧
    is_valid_name "_bad" = false := by
  constructor
  · intro project reg repo skip h
    unfold apply_total
    rw [h]
    rfl
  · decide

/-- Instantiation of `apply_total_invalid_name_aborts` at the project name
`"_bad"`. -/
theorem apply_total_invalid_name_aborts_inst :
    apply_total "_bad" emptyRegistry emptyRepo true = (Outcome.exitNonZero, []) :=
  apply_total_invalid_name_aborts.1 "_bad" emptyRegistry emptyRepo true (by decide)

/-- Claim C8: on a successful run (valid name; validation passed or
skipped) the trace contains exactly one apply call, whose to-apply list is
the concatenation of the keep-sets in the kind order entities, views,
services, on-demand views, tables, whose to-delete list is the
concatenation of the delete-sets in the same kind order, and whose
`partial` flag is `false`. -/
theorem apply_total_single_apply_call :
    ∀ (project : String) (reg : Registry) (repo : ParsedRepo) (skip : Bool),
    is_valid_name project = true →
    (skip = true ∨ ∀ t ∈ repo.feature_views, t.sourceValid = true) →
    (apply_total project reg repo skip).2.filter isApplyEvt =
      [Event.applyEvt
        ((reconcile reg repo).entities_keep ++ (reconcile reg repo).views_keep ++
          (reconcile reg repo).services_keep ++ (reconcile reg repo).odfvs_keep ++
          (reconcile reg repo).tables_keep)
        ((reconcile reg repo).entities_delete ++ (reconcile reg repo).views_delete ++
          (reconcile reg repo).services_delete ++ (reconcile reg repo).odfvs_delete ++
          (reconcile reg repo).tables_delete)
        false] := by
  intro project reg repo skip hname hval
  have hcond : (! skip && repo.feature_views.any (fun t => ! t.sourceValid)) = false := by
    rcases hval with h | h
    · rw [h]
      rfl
    · have : repo.feature_views.any (fun t => ! t.sourceValid) = false := by
        rw [List.any_eq_false]
        intro t ht
        rw [h t ht]
        exact fun hc => by cases hc
      rw [this, Bool.and_false]
  unfold apply_total
  rw [hname, hcond]
  rfl

/-- Instantiation of `apply_total_single_apply_call` on a concrete
project, registry and repo. -/
theorem apply_total_single_apply_call_inst :
    (apply_total "proj" regW repoW true).2.filter isApplyEvt =
      [Event.applyEvt
        ((reconcile regW repoW).entities_keep ++ (reconcile regW repoW).views_keep ++
          (reconcile regW repoW).services_keep ++ (reconcile regW repoW).odfvs_keep ++
          (reconcile regW repoW).tables_keep)
        ((reconcile regW repoW).entities_delete ++ (reconcile regW repoW).views_delete ++
          (reconcile regW repoW).services_delete ++ (reconcile regW repoW).odfvs_delete ++
          (reconcile regW repoW).tables_delete)
        false] :=
  apply_total_single_apply_call "proj" regW repoW true (by decide) (Or.inl rfl)

/-- Claim C10: `is_valid_name` accepts the empty string: it does not start
with an underscore and contains no non-word character. -/
theorem is_valid_name_empty : is_valid_name "" = true := by decide

/-! ## Filesystem model, `.feastignore` and the repo scanner

The filesystem under the repo root is modelled as the list of its regular
files, each a list of path components relative to the root; directories
are the strict prefixes of files.  Paths are already canonical
(`Path.resolve` is the identity in this symlink-free model).  `pathlib`'s
glob is reimplemented over this model: a pattern is split on `/`; a `**`
component matches any number of directory components (including zero); any
other component is matched by `fnmatch` with the `*` wildcard; a pattern
whose last component is `**` matches directories only. -/

/-- A path relative to the repo root, as a list of components. -/
abbrev FPath := List String

/-- The files under the repo root. -/
structure FileSystem where
  files : List FPath
deriving DecidableEq, Repr

/-- All strict prefixes of a path (the directories containing it,
including the root `[]`). -/
def strictPrefixes : FPath → List FPath
  | [] => []
  | c :: cs => [] :: (strictPrefixes cs).map (fun p => c :: p)

/-- The directories of the filesystem: strict prefixes of its files. -/
def dirsOf (fs : FileSystem) : List FPath :=
  fs.files.foldl (fun acc f => (strictPrefixes f).foldl setAdd acc) []

/-- Every existing path: directories then files. -/
def allPaths (fs : FileSystem) : List FPath := dirsOf fs ++ fs.files

/-- `p.is_file()`. -/
def isFile (fs : FileSystem) (p : FPath) : Bool := decide (p ∈ fs.files)

/-- `p.is_dir()`. -/
def isDir (fs : FileSystem) (p : FPath) : Bool := decide (p ∈ dirsOf fs)

/-- `fnmatch` on one path component with the `*` wildcard, totalized with
fuel; each recursive call shrinks `pat.length + s.length`, so the fuel
`pat.length + s.length + 1` used by `compMatch` never runs out. -/
def compMatchFuel : Nat → List Char → List Char → Bool
  | 0, _, _ => false
  | Nat.succ _, [], s => s.isEmpty
  | Nat.succ n, '*' :: ps, [] => compMatchFuel n ps []
  | Nat.succ n, '*' :: ps, c :: cs =>
      compMatchFuel n ps (c :: cs) || compMatchFuel n ('*' :: ps) cs
  | Nat.succ _, _ :: _, [] => false
  | Nat.succ n, p :: ps, c :: cs => p == c && compMatchFuel n ps cs

/-- `fnmatch` of one pattern component against one path component. -/
def compMatch (pat s : List Char) : Bool :=
  compMatchFuel (pat.length + s.length + 1) pat s

/-- Glob pattern components against path components: `**` consumes any
number of leading components, any other component must `fnmatch` the head.
Totalized with fuel like `compMatchFuel`. -/
def globMatchFuel : Nat → List String → List String → Bool
  | 0, _, _ => false
  | Nat.succ _, [], comps => comps.isEmpty
  | Nat.succ n, p :: ps, comps =>
    if p == "**" then
      globMatchFuel n ps comps ||
        (match comps with
         | [] => false
         | _ :: cs => globMatchFuel n (p :: ps) cs)
    else
      match comps with
      | [] => false
      | c :: cs => compMatch p.data c.data && globMatchFuel n ps cs

/-- Whether a glob pattern (already split on `/`) matches a path. -/
def globMatch (pat : List String) (p : FPath) : Bool :=
  globMatchFuel (pat.length + p.length + 1) pat p

/-- Split a string on a separator character (Python `str.split`). -/
def splitCharAux (c : Char) : List Char → List Char → List String
  | [], cur => [String.mk cur.reverse]
  | d :: ds, cur =>
    if d == c then String.mk cur.reverse :: splitCharAux c ds []
    else splitCharAux c ds (d :: cur)

/-- Split a string on a separator character (Python `str.split`). -/
def splitOnChar (c : Char) (s : String) : List String :=
  splitCharAux c s.data []

/-- Python `str.strip()`: remove leading and trailing whitespace. -/
def stripWS (s : String) : String :=
  String.mk (((s.data.dropWhile Char.isWhitespace).reverse.dropWhile
    Char.isWhitespace).reverse)

/-- `line[: line.find("#")]` when `"#"` occurs, else `line`: the part of
the line before the first `#`. -/
def cutAtHash (line : String) : String :=
  String.mk (line.data.takeWhile (fun c => c != '#'))

/-- `root.glob(pattern)` over the model: match every existing path; if the
pattern's last component is `**`, keep only directories (pathlib's
trailing `**` yields this directory and all subdirectories). -/
def glob (fs : FileSystem) (pattern : String) : List FPath :=
  let pat := splitOnChar '/' pattern
  let matched := (allPaths fs).filter (fun p => globMatch pat p)
  if pat.getLast? = some "**" then matched.filter (fun p => isDir fs p) else matched

/-- `base.glob(pattern)` for a directory `base` under the root: paths
strictly below `base` whose remainder matches the pattern. -/
def globUnder (fs : FileSystem) (base : FPath) (pattern : String) : List FPath :=
  let pat := splitOnChar '/' pattern
  let matched := (allPaths fs).filter
    (fun p => base.isPrefixOf p && decide (p ≠ base) && globMatch pat (p.drop base.length))
  if pat.getLast? = some "**" then matched.filter (fun p => isDir fs p) else matched

/-- The glob pattern `"**/*.py"` used for definition files. -/
def pyGlob : String := "**/*.py"

/-- `read_feastignore` (source lines 44-60), over the content of the
`.feastignore` file at the repo root (`none` when the file is absent):
strip the text, split on newlines, cut each line at the first `#`, strip
it, and keep it if non-empty. -/
def read_feastignore (content : Option String) : List String :=
  match content with
  | none => []
  | some text =>
    (splitOnChar '\n' (stripWS text)).foldl
      (fun ignore_paths line =>
        if 0 < (stripWS (cutAtHash line)).length then
          ignore_paths ++ [stripWS (cutAtHash line)]
        else ignore_paths)
      []

/-- `get_ignore_files` (source lines 63-79): for each ignore path, glob it
against the root; a matching file joins the exclusion set, a matching
directory contributes every `**/*.py` file under it. -/
def get_ignore_files (fs : FileSystem) (ignore_paths : List String) : List FPath :=
  ignore_paths.foldl
    (fun ignore_files ignore_path =>
      (glob fs ignore_path).foldl
        (fun ignore_files matched_path =>
          if isFile fs matched_path then
            setAdd ignore_files matched_path
          else
            (globUnder fs matched_path pyGlob).foldl
              (fun acc sub_path =>
                if isFile fs sub_path then setAdd acc sub_path else acc)
              ignore_files)
        ignore_files)
    []

/-- The path order used by Python's `sorted` on `Path` objects: compare
the joined path strings. -/
def pathStr : FPath → String
  | [] => ""
  | c :: cs => cs.foldl (fun acc comp => acc ++ "/" ++ comp) c

/-- The path order used by Python's `sorted` on `Path` objects. -/
def pathLeRel (p q : FPath) : Prop := pathStr p ≤ pathStr q

instance : DecidableRel pathLeRel := fun p q =>
  inferInstanceAs (Decidable (pathStr p ≤ pathStr q))

instance : IsTotal FPath pathLeRel := ⟨fun a b => le_total (pathStr a) (pathStr b)⟩

instance : IsTrans FPath pathLeRel := ⟨fun _ _ _ hab hbc => le_trans hab hbc⟩

/-- Python `sorted` over paths. -/
def sortPaths (l : List FPath) : List FPath := List.insertionSort pathLeRel l

/-- `get_repo_files` (source lines 82-94): all `**/*.py` files under the
root, minus the ignore files, sorted. -/
def get_repo_files (fs : FileSystem) (feastignore : Option String) : List FPath :=
  let ignore_paths := read_feastignore feastignore
  let ignore_files := get_ignore_files fs ignore_paths
  let repo_files := ((glob fs pyGlob).filter (fun p => isFile fs p)).foldl setAdd []
  sortPaths (repo_files.filter (fun p => decide (p ∉ ignore_files)))

/-! ## Claim C5: the repo scan -/

/-- The C5 scenario filesystem with Python definition files. -/
def fsPy : FileSystem := ⟨[["generated", "foo.py"], ["features.py"]]⟩

/-- The C5 scenario filesystem as literally written in the claim, with
`.def` files. -/
def fsDef : FileSystem := ⟨[["generated", "foo.def"], ["features.def"]]⟩

/-- Counterexample to claim C5 as stated: with files `generated/foo.def`
and `features.def` present and ignore pattern `generated/**`, the scan
returns nothing — in particular not `features.def` — because the scanner
only enumerates `**/*.py` files. -/
theorem get_repo_files_scenario_cex :
    fsDef.files = [["generated", "foo.def"], ["features.def"]] ∧
    get_repo_files fsDef (some "generated/**") = [] ∧
    get_repo_files fsDef (some "generated/**") ≠ [["features.def"]] := by decide

/-- Claim C5 (amended): for every filesystem and ignore-spec the scan
returns a sorted, duplicate-free sequence disjoint from the exclusion set
computed from the ignore-spec; the scenario holds with the definition
files written as Python files: with ignore pattern `generated/**` and
files `generated/foo.py` and `features.py`, only `features.py` is
returned. -/
theorem get_repo_files_spec :
    (∀ fs ig, List.Sorted pathLeRel (get_repo_files fs ig)) ∧
    (∀ fs ig, (get_repo_files fs ig).Nodup) ∧
    (∀ fs ig p, p ∈ get_repo_files fs ig →
      p ∉ get_ignore_files fs (read_feastignore ig)) ∧
    get_repo_files fsPy (some "generated/**") = [["features.py"]] := by
  refine ⟨?_, ?_, ?_, by decide⟩
  · intro fs ig
    exact List.sorted_insertionSort pathLeRel _
  · intro fs ig
    refine (List.perm_insertionSort pathLeRel _).nodup_iff.mpr ?_
    exact List.Nodup.filter _ (nodup_foldl_setAdd _ [] List.nodup_nil)
  · intro fs ig p hp
    have hp2 : p ∈ (((glob fs pyGlob).filter (fun p => isFile fs p)).foldl setAdd []).filter
        (fun p => decide (p ∉ get_ignore_files fs (read_feastignore ig))) :=
      (List.perm_insertionSort pathLeRel _).subset hp
    have h := (List.mem_filter.mp hp2).2
    simpa using h

/-- Instantiation of `get_repo_files_spec`: the returned file of the
scenario is not in the exclusion set. -/
theorem get_repo_files_spec_inst :
    (["features.py"] : FPath) ∉
      get_ignore_files fsPy (read_feastignore (some "generated/**")) :=
  get_repo_files_spec.2.2.1 fsPy (some "generated/**") ["features.py"] (by decide)

/-! ## Claim C9: the ignore-spec reader and the exclusion set -/

theorem mem_foldl_appendIf {α β : Type} (f : α → β) (cond : α → Prop) [DecidablePred cond]
    (l : List α) : ∀ (acc : List β) (y : β),
    y ∈ l.foldl (fun acc x => if cond x then acc ++ [f x] else acc) acc ↔
      y ∈ acc ∨ ∃ x, x ∈ l ∧ cond x ∧ y = f x := by
  induction l with
  | nil => simp
  | cons a l ih =>
    intro acc y
    rw [List.foldl_cons, ih]
    by_cases h : cond a
    · rw [if_pos h]
      constructor
      · rintro (hy | ⟨x, hx, hc, rfl⟩)
        · rcases List.mem_append.mp hy with hy | hy
          · exact Or.inl hy
          · rw [List.mem_singleton] at hy
            exact Or.inr ⟨a, List.mem_cons.mpr (Or.inl rfl), h, hy⟩
        · exact Or.inr ⟨x, List.mem_cons.mpr (Or.inr hx), hc, rfl⟩
      · rintro (hy | ⟨x, hx, hc, rfl⟩)
        · exact Or.inl (List.mem_append.mpr (Or.inl hy))
        · rcases List.mem_cons.mp hx with hxa | hx
          · refine Or.inl (List.mem_append.mpr (Or.inr ?_))
            rw [hxa]
            exact List.mem_singleton.mpr rfl
          · exact Or.inr ⟨x, hx, hc, rfl⟩
    · rw [if_neg h]
      constructor
      · rintro (hy | ⟨x, hx, hc, rfl⟩)
        · exact Or.inl hy
        · exact Or.inr ⟨x, List.mem_cons.mpr (Or.inr hx), hc, rfl⟩
      · rintro (hy | ⟨x, hx, hc, rfl⟩)
        · exact Or.inl hy
        · rcases List.mem_cons.mp hx with hxa | hx
          · exact absurd (hxa ▸ hc) h
          · exact Or.inr ⟨x, hx, hc, rfl⟩

theorem mem_foldl_mono {α β : Type} (step : List β → α → List β)
    (mono : ∀ acc x y, y ∈ acc → y ∈ step acc x) (l : List α) :
    ∀ (acc : List β) (y : β), y ∈ acc → y ∈ l.foldl step acc := by
  induction l with
  | nil => intro acc y hy; simpa
  | cons a l ih => intro acc y hy; exact ih _ _ (mono acc a y hy)

theorem mem_foldl_of_mem_step {α β : Type} (step : List β → α → List β)
    (mono : ∀ acc x y, y ∈ acc → y ∈ step acc x) (l : List α) :
    ∀ (acc : List β) (x : α) (y : β), x ∈ l → (∀ a, y ∈ step a x) →
      y ∈ l.foldl step acc := by
  induction l with
  | nil => intro acc x y hx _; exact absurd hx (List.not_mem_nil x)
  | cons a l ih =>
    intro acc x y hx hy
    rcases List.mem_cons.mp hx with hxa | hx
    · rw [List.foldl_cons]
      exact mem_foldl_mono step mono l _ y (hxa ▸ hy acc)
    · exact ih _ x y hx hy

theorem mem_step_addIf {α : Type} [DecidableEq α] (cond : α → Prop) [DecidablePred cond]
    (acc : List α) (e y : α) (hy : y ∈ acc) :
    y ∈ (if cond e then setAdd acc e else acc) := by
  by_cases h : cond e
  · rw [if_pos h]
    exact (mem_setAdd acc e y).mpr (Or.inl hy)
  · rwa [if_neg h]

/-- Monotonicity of the per-matched-path step of `get_ignore_files`: the
accumulated exclusion set only grows. -/
theorem mem_ignore_inner_step (fs : FileSystem) (acc : List FPath) (mp y : FPath)
    (hy : y ∈ acc) :
    y ∈ (if isFile fs mp then setAdd acc mp
         else (globUnder fs mp pyGlob).foldl
           (fun acc sub_path => if isFile fs sub_path then setAdd acc sub_path else acc)
           acc) := by
  by_cases h : isFile fs mp
  · rw [if_pos h]
    exact (mem_setAdd acc mp y).mpr (Or.inl hy)
  · rw [if_neg h]
    refine mem_foldl_mono _ ?_ _ acc y hy
    intro acc2 sp z hz
    exact mem_step_addIf (fun sp => isFile fs sp = true) acc2 sp z hz

/-- Monotonicity of the per-pattern step of `get_ignore_files`. -/
theorem mem_ignore_outer_step (fs : FileSystem) (acc : List FPath) (pat : String)
    (y : FPath) (hy : y ∈ acc) :
    y ∈ (glob fs pat).foldl
      (fun ignore_files matched_path =>
        if isFile fs matched_path then setAdd ignore_files matched_path
        else (globUnder fs matched_path pyGlob).foldl
          (fun acc sub_path => if isFile fs sub_path then setAdd acc sub_path else acc)
          ignore_files)
      acc := by
  refine mem_foldl_mono _ ?_ _ acc y hy
  intro acc2 mp z hz
  exact mem_ignore_inner_step fs acc2 mp z hz

/-- Claim C9: `read_feastignore` strips everything from the first `#`,
strips whitespace, skips blank results, and returns exactly the surviving
patterns (an absent file gives the empty list); `get_ignore_files` puts a
matched file into the exclusion set, adds every `**/*.py` file under a
matched directory, and ignores without error any pattern matching
nothing. -/
theorem feastignore_spec :
    read_feastignore none = [] ∧
    (∀ text p, p ∈ read_feastignore (some text) →
      0 < p.length ∧
        ∃ line, line ∈ splitOnChar '\n' (stripWS text) ∧
          p = stripWS (cutAtHash line)) ∧
    (∀ text line, line ∈ splitOnChar '\n' (stripWS text) →
      0 < (stripWS (cutAtHash line)).length →
      stripWS (cutAtHash line) ∈ read_feastignore (some text)) ∧
    (∀ (fs : FileSystem) (pats : List String) (pat : String) (mp : FPath),
      pat ∈ pats → mp ∈ glob fs pat → isFile fs mp = true →
      mp ∈ get_ignore_files fs pats) ∧
    (∀ (fs : FileSystem) (pats : List String) (pat : String) (mp sp : FPath),
      pat ∈ pats → mp ∈ glob fs pat → isFile fs mp = false →
      sp ∈ globUnder fs mp pyGlob → isFile fs sp = true →
      sp ∈ get_ignore_files fs pats) ∧
    (∀ (fs : FileSystem) (pats : List String) (pat : String), glob fs pat = [] →
      get_ignore_files fs (pats ++ [pat]) = get_ignore_files fs pats) := by
  refine ⟨rfl, ?_, ?_, ?_, ?_, ?_⟩
  · intro text p hp
    have h := (mem_foldl_appendIf (fun line => stripWS (cutAtHash line))
      (fun line => 0 < (stripWS (cutAtHash line)).length)
      (splitOnChar '\n' (stripWS text)) [] p).mp hp
    rcases h with h | ⟨x, hx, hc, hpx⟩
    · exact absurd h (List.not_mem_nil p)
    · refine ⟨by rw [hpx]; exact hc, x, hx, hpx⟩
  · intro text line hline hlen
    exact (mem_foldl_appendIf (fun line => stripWS (cutAtHash line))
      (fun line => 0 < (stripWS (cutAtHash line)).length)
      (splitOnChar '\n' (stripWS text)) [] _).mpr (Or.inr ⟨line, hline, hlen, rfl⟩)
  · intro fs pats pat mp hpat hmp hfile
    refine mem_foldl_of_mem_step _
      (fun acc ip y hy => mem_ignore_outer_step fs acc ip y hy) pats [] pat mp hpat ?_
    intro a
    refine mem_foldl_of_mem_step _
      (fun acc mp2 y hy => mem_ignore_inner_step fs acc mp2 y hy) (glob fs pat) a mp mp
      hmp ?_
    intro a2
    rw [if_pos hfile]
    exact (mem_setAdd a2 mp mp).mpr (Or.inr rfl)
  · intro fs pats pat mp sp hpat hmp hnotfile hsp hspfile
    refine mem_foldl_of_mem_step _
      (fun acc ip y hy => mem_ignore_outer_step fs acc ip y hy) pats [] pat sp hpat ?_
    intro a
    refine mem_foldl_of_mem_step _
      (fun acc mp2 y hy => mem_ignore_inner_step fs acc mp2 y hy) (glob fs pat) a mp sp
      hmp ?_
    intro a2
    rw [if_neg (by rw [hnotfile]; exact fun hc => by cases hc)]
    refine mem_foldl_of_mem_step _
      (fun acc sp2 y hy => mem_step_addIf (fun q => isFile fs q = true) acc sp2 y hy)
      (globUnder fs mp pyGlob) a2 sp sp hsp ?_
    intro a3
    rw [if_pos hspfile]
    exact (mem_setAdd a3 sp sp).mpr (Or.inr rfl)
  · intro fs pats pat h
    unfold get_ignore_files
    rw [List.foldl_append]
    simp only [List.foldl_cons, List.foldl_nil]
    rw [h]
    rfl

/-- Instantiation of `feastignore_spec` on the scenario filesystem: a
pattern naming a file puts that file in the exclusion set, and the
directory pattern `generated/**` pulls in the Python file under
`generated`. -/
theorem feastignore_spec_inst :
    (["features.py"] : FPath) ∈ get_ignore_files fsPy ["features.py"] ∧
    (["generated", "foo.py"] : FPath) ∈ get_ignore_files fsPy ["generated/**"] ∧
    "generated/**" ∈ read_feastignore (some "generated/**   # generated code") :=
  ⟨feastignore_spec.2.2.2.1 fsPy ["features.py"] "features.py" ["features.py"]
      (by decide) (by decide) (by decide),
   feastignore_spec.2.2.2.2.1 fsPy ["generated/**"] "generated/**" ["generated"]
      ["generated", "foo.py"] (by decide) (by decide) (by decide) (by decide) (by decide),
   feastignore_spec.2.2.1 "generated/**   # generated code" "generated/**   # generated code"
      (by decide) (by decide)⟩
